import Mathlib

/-!
Verification development for the seashell SSH client front end.

The definitions below are a shallow embedding of the program's data model and
of the operations relevant to its specification: the hierarchical `Scope`
configuration and its merge, `ConnectionData` construction (the parameter
cascade), the connection pipeline's `establish` step, the authentication
engine, the trust-on-first-use host-key callback, the interactive relay loop,
configuration (de)serialization, and server resolution.

Conventions of the embedding:
* machine integers (`u16`, `u64`, `usize`) are modelled as `Nat`
  (no arithmetic in the modelled code can overflow a `Nat`);
* fallible Rust code returning `Result` is modelled with `Except`;
  a Rust panic is modelled by an outer `Option` layer (`none` = panic);
* file-system paths are modelled as `String`;
* values produced by external collaborator crates (the russh protocol engine,
  the OS environment, the key agent) are inputs of the modelled functions:
  each external call's outcome is a field of a behaviour record.
-/

/-- Decidable equality for `Except`, used to evaluate modelled outcomes. -/
instance {e a : Type} [DecidableEq e] [DecidableEq a] : DecidableEq (Except e a) :=
  fun x y =>
    match x, y with
    | .ok u, .ok v =>
      if h : u = v then isTrue (by rw [h])
      else isFalse (by intro hc; injection hc with h2; exact h h2)
    | .error u, .error v =>
      if h : u = v then isTrue (by rw [h])
      else isFalse (by intro hc; injection hc with h2; exact h h2)
    | .ok _, .error _ => isFalse (by intro hc; injection hc)
    | .error _, .ok _ => isFalse (by intro hc; injection hc)

/-- A scope of optional SSH connection parameters
(`src/storage/config.rs`, `struct Scope`).  The algorithm-name newtypes
(`KexName`, `AlgoName`, `CipherName`, `MacName`) wrap plain names and are
modelled as `String`. -/
structure Scope where
  user : Option String := none
  port : Option Nat := none
  known_hosts : Option String := none
  private_key : Option String := none
  openssh_cert : Option String := none
  kex : Option (List String) := none
  alg : Option (List String) := none
  cipher : Option (List String) := none
  mac : Option (List String) := none
  timeout : Option Nat := none
  interval : Option Nat := none
  retries : Option Nat := none
deriving DecidableEq, Repr

/-- `Scope::default()`: every field absent. -/
def Scope.default : Scope := {}

/-- `Scope::is_empty`: comparison with the default scope. -/
def Scope.is_empty (s : Scope) : Bool := s = Scope.default

/-- A server entry: an address plus its own scope overrides
(`src/storage/config.rs`, `struct Server`). -/
structure Server where
  address : String
  scope : Scope := {}
deriving DecidableEq, Repr

/-- `Server::new`: an address with a default (empty) scope. -/
def Server.new (address : String) : Server := { address }

/-- A scoped server: either a bare address or a full override
(`src/storage/config.rs`, `enum ScopedServer`). -/
inductive ScopedServer where
  | address (a : String)
  | override_ (s : Server)
deriving DecidableEq, Repr

/-- `impl From<ScopedServer> for Server`. -/
def ScopedServer.toServer : ScopedServer → Server
  | .address a => Server.new a
  | .override_ s => s

/-- A named entry: one global server or a map of scoped servers
(`src/storage/config.rs`, `enum ServerEntry`).  `IndexMap` preserves insertion
order and is modelled as an association list. -/
inductive ServerEntry where
  | global (s : ScopedServer)
  | scope (m : List (String × ScopedServer))
deriving DecidableEq, Repr

/-- The whole configuration (`src/storage/config.rs`, `struct Config`). -/
structure Config where
  default : Option Scope := none
  scopes : List (String × Scope) := []
  servers : List (String × ServerEntry) := []
deriving DecidableEq, Repr

/-- `Scope::add_assign` (`impl AddAssign for Scope`): for every field,
`*field = field.take().or(other.field)`, i.e. the left (more specific) side
wins whenever present. -/
def Scope.add_assign (self other : Scope) : Scope where
  user := self.user.or other.user
  port := self.port.or other.port
  known_hosts := self.known_hosts.or other.known_hosts
  private_key := self.private_key.or other.private_key
  openssh_cert := self.openssh_cert.or other.openssh_cert
  kex := self.kex.or other.kex
  alg := self.alg.or other.alg
  cipher := self.cipher.or other.cipher
  mac := self.mac.or other.mac
  timeout := self.timeout.or other.timeout
  interval := self.interval.or other.interval
  retries := self.retries.or other.retries

/-- `Server::apply_scope`: `self.scope += scope`. -/
def Server.apply_scope (s : Server) (scope : Scope) : Server :=
  { s with scope := s.scope.add_assign scope }

/-- `Server::apply_host_placeholder`: substitute `$h` by the host string. -/
def Server.apply_host_placeholder (s : Server) (host : String) : Server :=
  { s with address := s.address.replace "$h" host }

/-- C6: For any two Scope values `a` (more specific) and `b` (less specific),
the merge operation (`Scope::add_assign`, used by `Server::apply_scope`)
yields, for each of the twelve fields independently, `a`'s value whenever
`a`'s field is present and `b`'s value otherwise; no field is dropped or
taken from the wrong side.  Moreover `apply_scope` merges the server's own
scope (more specific) against the supplied enclosing scope and leaves the
address alone. -/
theorem scope_merge_prefers_specific_fieldwise (a b : Scope) (srv : Server) :
    ((Scope.add_assign a b).user =
        match a.user with | some v => some v | none => b.user) ∧
    ((Scope.add_assign a b).port =
        match a.port with | some v => some v | none => b.port) ∧
    ((Scope.add_assign a b).known_hosts =
        match a.known_hosts with | some v => some v | none => b.known_hosts) ∧
    ((Scope.add_assign a b).private_key =
        match a.private_key with | some v => some v | none => b.private_key) ∧
    ((Scope.add_assign a b).openssh_cert =
        match a.openssh_cert with | some v => some v | none => b.openssh_cert) ∧
    ((Scope.add_assign a b).kex =
        match a.kex with | some v => some v | none => b.kex) ∧
    ((Scope.add_assign a b).alg =
        match a.alg with | some v => some v | none => b.alg) ∧
    ((Scope.add_assign a b).cipher =
        match a.cipher with | some v => some v | none => b.cipher) ∧
    ((Scope.add_assign a b).mac =
        match a.mac with | some v => some v | none => b.mac) ∧
    ((Scope.add_assign a b).timeout =
        match a.timeout with | some v => some v | none => b.timeout) ∧
    ((Scope.add_assign a b).interval =
        match a.interval with | some v => some v | none => b.interval) ∧
    ((Scope.add_assign a b).retries =
        match a.retries with | some v => some v | none => b.retries) ∧
    (Server.apply_scope srv a).scope = Scope.add_assign srv.scope a ∧
    (Server.apply_scope srv a).address = srv.address := by
  refine ⟨?_, ?_, ?_, ?_, ?_, ?_, ?_, ?_, ?_, ?_, ?_, ?_, rfl, rfl⟩
  · cases h : a.user <;> simp [Scope.add_assign, Option.or, h]
  · cases h : a.port <;> simp [Scope.add_assign, Option.or, h]
  · cases h : a.known_hosts <;> simp [Scope.add_assign, Option.or, h]
  · cases h : a.private_key <;> simp [Scope.add_assign, Option.or, h]
  · cases h : a.openssh_cert <;> simp [Scope.add_assign, Option.or, h]
  · cases h : a.kex <;> simp [Scope.add_assign, Option.or, h]
  · cases h : a.alg <;> simp [Scope.add_assign, Option.or, h]
  · cases h : a.cipher <;> simp [Scope.add_assign, Option.or, h]
  · cases h : a.mac <;> simp [Scope.add_assign, Option.or, h]
  · cases h : a.timeout <;> simp [Scope.add_assign, Option.or, h]
  · cases h : a.interval <;> simp [Scope.add_assign, Option.or, h]
  · cases h : a.retries <;> simp [Scope.add_assign, Option.or, h]

/-- The server URI `[user@]host[:port]` after parsing
(`src/cli/parser.rs`, `struct ServerUri`). -/
structure ServerUri where
  address : String
  user : Option String := none
  port : Option Nat := none
deriving DecidableEq, Repr

/-- Connection-level errors (`src/error.rs`, `enum ConnectionError`;
the DNS and regex payloads are opaque here). -/
inductive ConnectionError where
  | UserRequired
  | Regex (e : String)
  | Dns
deriving DecidableEq, Repr

/-- Preferred algorithm lists (`russh::Preferred`, an external collaborator
type; only its shape matters to this program). -/
structure Preferred where
  kex : List String
  key : List String
  cipher : List String
  mac : List String
deriving DecidableEq, Repr

/-- Modelled from the spec: `russh::Preferred::default()`, the protocol
engine's built-in preferred algorithm lists.  Their concrete contents live in
the external russh crate; the program never inspects them, so they are
modelled as empty lists. -/
def Preferred.libDefault : Preferred := ⟨[], [], [], []⟩

/-- The transport configuration handed to the protocol engine
(`russh::client::Config`; durations modelled in whole seconds). -/
structure RusshClientConfig where
  preferred : Preferred
  inactivity_timeout : Option Nat
  keepalive_interval : Option Nat
  keepalive_max : Nat
deriving DecidableEq, Repr

/-- Modelled from the spec: `russh::client::Config::default()`, the protocol
engine's built-in default configuration (including its built-in
keepalive-retry default, whose concrete value the program never inspects). -/
def RusshClientConfig.libDefault : RusshClientConfig :=
  { preferred := Preferred.libDefault
    inactivity_timeout := none
    keepalive_interval := none
    keepalive_max := 3 }

/-- Modelled from the spec: the OS home directory reported by the
`directories` crate, fixed to an arbitrary absolute path. -/
def HOME_DIR : String := "/home/user"

/-- `WORK_DIR` (`src/storage/provider.rs`): `~/.seashell`. -/
def WORK_DIR : String := HOME_DIR ++ "/.seashell"

/-- `get_full_path` (`src/storage/provider.rs`): an absolute path is used
as-is; a path starting with `~/` is expanded against the home directory; any
other path makes the source panic (modelled as `none`). -/
def get_full_path (path : String) : Option String :=
  if path.startsWith "/" then some path
  else if path.startsWith "~/" then some (HOME_DIR ++ "/" ++ path.drop 2)
  else none

/-- One `cascade!`d path field: `picked.map(get_full_path)` where
`get_full_path` may panic.  Outer `none` models the panic; the inner option
is the cascaded path (still absent if no source supplied one). -/
def resolvePathOpt (picked : Option String) : Option (Option String) :=
  match picked with
  | none => some none
  | some p =>
    match get_full_path p with
    | none => none
    | some fp => some (some fp)

/-- The fully resolved connection parameters
(`src/client/data.rs`, `struct ConnectionData`). -/
structure ConnectionData where
  address : String
  user : String
  port : Nat
  remote_cmd : Option String
  known_hosts : String
  private_key : Option String
  openssh_cert : Option String
  config : RusshClientConfig
deriving DecidableEq, Repr

/-- `ConnectionData::new` (`src/client/data.rs`).  `env_user` is the value of
the OS environment variable `USER` at the call.  The `cascade!` macro expands
to `None.or(src1.f)...or(srcN.f).map(m).unwrap_or(default)`; because Rust
evaluates `unwrap_or`'s argument before the call, the `user` default
`env::var("USER").ok().ok_or(ConnectionError::UserRequired)?` runs (and its
`?` can return early) even when an earlier source supplied the user — this is
modelled by matching on `env_user` before consulting the sources.  The outer
`Option` models a panic inside `get_full_path`. -/
def ConnectionData.new (env_user : Option String) (uri : ServerUri)
    (remote_cmd : Option String) (flags : Scope) (server : Server)
    (global : Scope) : Option (Except ConnectionError ConnectionData) :=
  let scope := server.scope
  let address := server.address
  match env_user with
  | none => some (Except.error ConnectionError.UserRequired)
  | some envU =>
    let user := ((((uri.user).or flags.user).or scope.user).or global.user).getD envU
    let port := ((((uri.port).or flags.port).or scope.port).or global.port).getD 22
    match resolvePathOpt (((flags.known_hosts).or scope.known_hosts).or global.known_hosts) with
    | none => none
    | some khOpt =>
      let known_hosts := khOpt.getD (WORK_DIR ++ "/known_hosts")
      match resolvePathOpt (((flags.private_key).or scope.private_key).or global.private_key) with
      | none => none
      | some private_key =>
        match resolvePathOpt (((flags.openssh_cert).or scope.openssh_cert).or global.openssh_cert) with
        | none => none
        | some openssh_cert =>
          let kex := (((flags.kex).or scope.kex).or global.kex).getD Preferred.libDefault.kex
          let alg := (((flags.alg).or scope.alg).or global.alg).getD Preferred.libDefault.key
          let cipher := (((flags.cipher).or scope.cipher).or global.cipher).getD Preferred.libDefault.cipher
          let mac := (((flags.mac).or scope.mac).or global.mac).getD Preferred.libDefault.mac
          let timeout := ((flags.timeout).or scope.timeout).or global.timeout
          let interval := ((flags.interval).or scope.interval).or global.interval
          let retries := (((flags.retries).or scope.retries).or global.retries).getD RusshClientConfig.libDefault.keepalive_max
          some (Except.ok
            { address, user, port, remote_cmd, known_hosts, private_key, openssh_cert
              config :=
                { preferred := { kex, key := alg, cipher, mac }
                  inactivity_timeout := timeout
                  keepalive_interval := interval
                  keepalive_max := retries } })

/-- C2: Building `ConnectionData` is claimed to fail with a user-required
error only when no source supplies a user and the OS reports none.  The code
disagrees: `unwrap_or` evaluates its default argument eagerly, so the `?` on
the missing `USER` environment variable aborts `ConnectionData::new` even
though the URI supplies the user `alice`. -/
theorem connection_data_new_fails_without_env_user_despite_uri_user :
    (ServerUri.mk "h" (some "alice") none).user = some "alice" ∧
    ConnectionData.new none (ServerUri.mk "h" (some "alice") none) none
        Scope.default (Server.new "h") Scope.default
      = some (Except.error ConnectionError.UserRequired) :=
  ⟨rfl, rfl⟩

/-- The in-progress connection (`src/client/connect.rs`, `struct Connection`;
the socket address and session handle live in the external engine and are
not part of the modelled state). -/
structure Connection where
  data : ConnectionData
deriving DecidableEq, Repr

/-- `Connection::establish` (`src/client/connect.rs`): the handler is built
from `mem::take(&mut self.data.known_hosts)` and the engine configuration
from `mem::take(&mut self.data.config)`, leaving both fields at their
`Default` values (`PathBuf::default()` is the empty path). -/
def Connection.establish (c : Connection) : Connection :=
  { data :=
      { c.data with
        known_hosts := ""
        config := RusshClientConfig.libDefault } }

/-- C7 counterexample: after `establish`, the `known_hosts` field of the
`ConnectionData` no longer holds the value it was constructed with — the
claim that every field keeps its constructed value is false. -/
theorem establish_resets_known_hosts_field :
    ((Connection.mk
        { address := "h", user := "alice", port := 22, remote_cmd := none
          known_hosts := "/home/user/.seashell/known_hosts"
          private_key := none, openssh_cert := none
          config := RusshClientConfig.libDefault }).establish).data.known_hosts
      ≠ "/home/user/.seashell/known_hosts" := by
  decide

/-- C7 amended: `establish` moves exactly the `known_hosts` path and the
transport configuration out of the `ConnectionData` (resetting them to their
defaults, for the protocol engine's use) and leaves every other field —
address, user, port, remote command, private key, certificate — with the
value it was constructed with. -/
theorem establish_mutates_only_known_hosts_and_config (c : Connection) :
    (c.establish).data.address = c.data.address ∧
    (c.establish).data.user = c.data.user ∧
    (c.establish).data.port = c.data.port ∧
    (c.establish).data.remote_cmd = c.data.remote_cmd ∧
    (c.establish).data.private_key = c.data.private_key ∧
    (c.establish).data.openssh_cert = c.data.openssh_cert ∧
    (c.establish).data.known_hosts = "" ∧
    (c.establish).data.config = RusshClientConfig.libDefault :=
  ⟨rfl, rfl, rfl, rfl, rfl, rfl, rfl, rfl⟩

/-- Leading-whitespace removal on the character list (`str::trim_start`). -/
def trimLeftChars : List Char → List Char
  | [] => []
  | c :: rest => if c.isWhitespace then trimLeftChars rest else c :: rest

/-- Whitespace trim on both ends (`str::trim`). -/
def trimBoth (cs : List Char) : List Char :=
  ((trimLeftChars ((trimLeftChars cs).reverse)).reverse)

/-- Whether the string begins with `#` (`str::starts_with('#')`). -/
def hashFirst (s : String) : Bool :=
  match s.data with
  | '#' :: _ => true
  | _ => false

/-- Splitting on whitespace runs, no empty pieces (`str::split_whitespace`);
`acc` holds the current word reversed. -/
def splitWsAux : List Char → List Char → List (List Char)
  | [], acc => if acc.isEmpty then [] else [acc.reverse]
  | c :: rest, acc =>
    if c.isWhitespace then
      if acc.isEmpty then splitWsAux rest []
      else acc.reverse :: splitWsAux rest []
    else splitWsAux rest (c :: acc)

/-- `str::split_whitespace` collected to a vector. -/
def splitWs (s : String) : List String :=
  (splitWsAux s.data []).map List.asString

/-- ASCII-case-insensitive string equality (`str::eq_ignore_ascii_case`). -/
def eqIgnoreAsciiCase (a b : String) : Bool :=
  a.data.map Char.toLower == b.data.map Char.toLower

/-- UTF-8 encoding of one character (the bytes `str::as_bytes` yields). -/
def charUtf8 (c : Char) : List Nat :=
  let n := c.toNat
  if n < 0x80 then [n]
  else if n < 0x800 then [0xC0 + n / 64, 0x80 + n % 64]
  else if n < 0x10000 then [0xE0 + n / 4096, 0x80 + n / 64 % 64, 0x80 + n % 64]
  else [0xF0 + n / 262144, 0x80 + n / 4096 % 64, 0x80 + n / 64 % 64, 0x80 + n % 64]

/-- `str::as_bytes`: the UTF-8 bytes of a string. -/
def utf8Bytes (s : String) : List Nat :=
  s.data.flatMap charUtf8

/-- The standard base64 alphabet. -/
def b64Alphabet : String :=
  "ABCDEFGHIJKLMNOPQRSTUVWXYZabcdefghijklmnopqrstuvwxyz0123456789+/"

/-- One base64 digit. -/
def b64Digit (n : Nat) : Char := b64Alphabet.data.getD n 'A'

/-- Unpadded base64 of a byte list (the encoding `ssh_key` uses when
rendering a fingerprint). -/
def b64Encode : List Nat → List Char
  | [] => []
  | [a] => [b64Digit (a / 4), b64Digit (a % 4 * 16)]
  | [a, b] => [b64Digit (a / 4), b64Digit (a % 4 * 16 + b / 16), b64Digit (b % 16 * 4)]
  | a :: b :: d :: rest =>
    b64Digit (a / 4) :: b64Digit (a % 4 * 16 + b / 16) ::
      b64Digit (b % 16 * 4 + d / 64) :: b64Digit (d % 64) :: b64Encode rest

/-- The server's presented host key, as the handler observes it:
`key.algorithm()` and `key.public_key_base64()` as strings, and the raw
SHA-256 digest bytes that `key.fingerprint(HashAlg::default()).as_bytes()`
returns (`ssh_key::Fingerprint` stores the digest; its `Display` renders
`SHA256:` followed by the unpadded base64 of the digest). -/
structure HostKey where
  algorithm : String
  base64 : String
  digest : List Nat
deriving DecidableEq, Repr

/-- The fingerprint string shown to the user in the prompt
(`Display for ssh_key::Fingerprint`). -/
def fingerprintDisplay (k : HostKey) : String :=
  "SHA256:" ++ (b64Encode k.digest).asString

/-- Result of one `check_server_key` invocation: the returned Boolean, the
store contents after the call, and whether the interactive user was
prompted (stdin read). -/
structure CheckResult where
  accepted : Bool
  store : List String
  prompted : Bool
deriving DecidableEq, Repr

/-- The entry `trust_host` appends: `{ip} {algorithm} {base64}\n`
(one line of the store). -/
def trust_host_entry (ip : String) (key : HostKey) : String :=
  ip ++ " " ++ key.algorithm ++ " " ++ key.base64

/-- `ClientHandler::handle_unknown_host` (`src/client/handler.rs`): prompt,
trim the typed line, accept on `y`/`yes` (ASCII-case-insensitive) or when the
input's bytes equal `fingerprint.as_bytes()` (the raw digest bytes), in which
case `trust_host` appends one entry; decline otherwise. -/
def handle_unknown_host (ip : String) (key : HostKey) (store : List String)
    (answer : String) : CheckResult :=
  let input := (trimBoth answer.data).asString
  if eqIgnoreAsciiCase input "y" || eqIgnoreAsciiCase input "yes"
      || (utf8Bytes input == key.digest) then
    { accepted := true, store := store ++ [trust_host_entry ip key], prompted := true }
  else
    { accepted := false, store := store, prompted := true }

/-- `ClientHandler::handle_key_changed`: print a warning on stderr, refuse,
touch nothing, never read stdin. -/
def handle_key_changed (store : List String) : CheckResult :=
  { accepted := false, store := store, prompted := false }

/-- Outcome of the line scan inside `check_server_key`. -/
inductive ScanOutcome where
  | matched
  | changed
  | unknown
deriving DecidableEq, Repr

/-- The `while let Some(line) = lines.next_line()` scan of
`ClientHandler::check_server_key`: skip `#`-prefixed and blank lines (after
`trim_start`); the first remaining line with at least three
whitespace-separated fields whose first field equals the server address
decides — `matched` if algorithm and key material also agree, `changed`
otherwise (`break`); `unknown` if no line decides. -/
def scanStore (ip alg b64 : String) : List String → ScanOutcome
  | [] => .unknown
  | line :: rest =>
    let l := (trimLeftChars line.data).asString
    if hashFirst l || l.data.isEmpty then scanStore ip alg b64 rest
    else if decide (3 ≤ (splitWs l).length) && ((splitWs l).getD 0 "" == ip) then
      if ((splitWs l).getD 1 "" == alg) && ((splitWs l).getD 2 "" == b64) then
        .matched
      else .changed
    else scanStore ip alg b64 rest

/-- `ClientHandler::check_server_key` on an existing store (the claims all
concern stores that already exist, so the create-if-missing step is the
identity): scan, then accept known hosts, refuse changed keys, or fall to the
unknown-host prompt.  `answer` is the line the user would type if prompted. -/
def check_server_key (ip : String) (key : HostKey) (store : List String)
    (answer : String) : CheckResult :=
  match scanStore ip key.algorithm key.base64 store with
  | .matched => { accepted := true, store := store, prompted := false }
  | .changed => handle_key_changed store
  | .unknown => handle_unknown_host ip key store answer

/-- Whether a store line is the one the scan decides on for address `ip`:
not skipped, at least three fields, first field equal to `ip`. -/
def entryDecides (ip line : String) : Bool :=
  !(hashFirst ((trimLeftChars line.data).asString)
      || ((trimLeftChars line.data).asString).data.isEmpty) &&
    (decide (3 ≤ (splitWs ((trimLeftChars line.data).asString)).length)
      && ((splitWs ((trimLeftChars line.data).asString)).getD 0 "" == ip))

/-- Whether a deciding store line carries the presented algorithm and key
material in its second and third fields. -/
def entryKeyMatches (alg b64 line : String) : Bool :=
  ((splitWs ((trimLeftChars line.data).asString)).getD 1 "" == alg)
    && ((splitWs ((trimLeftChars line.data).asString)).getD 2 "" == b64)

/-- One scan step, phrased through the two line predicates. -/
theorem scanStore_cons (ip alg b64 line : String) (rest : List String) :
    scanStore ip alg b64 (line :: rest) =
      if entryDecides ip line then
        (if entryKeyMatches alg b64 line then ScanOutcome.matched
         else ScanOutcome.changed)
      else scanStore ip alg b64 rest := by
  by_cases h1 : (hashFirst ((trimLeftChars line.data).asString)
      || ((trimLeftChars line.data).asString).data.isEmpty) = true
  · simp [scanStore, entryDecides, h1]
  · by_cases h2 : (3 ≤ (splitWs ((trimLeftChars line.data).asString)).length ∧
        (splitWs ((trimLeftChars line.data).asString))[0]?.getD "" = ip)
    · simp [scanStore, entryDecides, entryKeyMatches, h1, h2]
    · simp [scanStore, entryDecides, entryKeyMatches, h1, h2]

/-- Lines that do not decide are skipped by the scan. -/
theorem scanStore_append_of_skip (ip alg b64 : String) (pre rest : List String)
    (hpre : ∀ l ∈ pre, entryDecides ip l = false) :
    scanStore ip alg b64 (pre ++ rest) = scanStore ip alg b64 rest := by
  induction pre with
  | nil => rfl
  | cons hd tl ih =>
    have hhd : entryDecides ip hd = false := hpre hd (by simp)
    rw [List.cons_append, scanStore_cons, hhd]
    simp only [Bool.false_eq_true, if_false]
    exact ih (fun l hl => hpre l (by simp [hl]))

/-- C3 counterexample: the claim quantifies over every store *containing* a
mismatching entry for the address, but the scan stops at the first entry
whose address matches.  Here the second store line has the server's address
with a different algorithm and key, yet the callback accepts (returns true)
because the first line matches fully. -/
theorem check_server_key_accepts_despite_later_mismatched_entry :
    entryDecides "9.9.9.9" "9.9.9.9 ssh-ed25519 BBBB" = true ∧
    entryKeyMatches "ssh-rsa" "AAAA" "9.9.9.9 ssh-ed25519 BBBB" = false ∧
    check_server_key "9.9.9.9" (HostKey.mk "ssh-rsa" "AAAA" [])
        ["9.9.9.9 ssh-rsa AAAA", "9.9.9.9 ssh-ed25519 BBBB"] "no"
      = { accepted := true
          store := ["9.9.9.9 ssh-rsa AAAA", "9.9.9.9 ssh-ed25519 BBBB"]
          prompted := false } := by
  decide

/-- C3 amended: for every host-key store whose *first* deciding entry for the
server's address (at least three whitespace-separated fields, first field
equal to the address) differs from the presented key in algorithm or key
material, the callback returns false without prompting the user, and the
store is unchanged by the call. -/
theorem check_server_key_refuses_on_first_entry_mismatch
    (ip : String) (key : HostKey) (pre post : List String) (line answer : String)
    (hpre : ∀ l ∈ pre, entryDecides ip l = false)
    (hline : entryDecides ip line = true)
    (hdiff : entryKeyMatches key.algorithm key.base64 line = false) :
    check_server_key ip key (pre ++ line :: post) answer =
      { accepted := false, store := pre ++ line :: post, prompted := false } := by
  unfold check_server_key
  rw [scanStore_append_of_skip _ _ _ _ _ hpre, scanStore_cons]
  simp [hline, hdiff, handle_key_changed]

/-- C3 witness: one stored key for the address, a newly presented key with
different material — refused, nothing prompted, store untouched. -/
theorem check_server_key_refuses_on_first_entry_mismatch_witness :
    check_server_key "5.5.5.5" (HostKey.mk "ssh-rsa" "NEWKEY" [])
        ["5.5.5.5 ssh-rsa OLDKEY"] "yes"
      = { accepted := false, store := ["5.5.5.5 ssh-rsa OLDKEY"]
          prompted := false } :=
  check_server_key_refuses_on_first_entry_mismatch "5.5.5.5"
    (HostKey.mk "ssh-rsa" "NEWKEY" []) [] [] "5.5.5.5 ssh-rsa OLDKEY" "yes"
    (by decide) (by decide) (by decide)

/-- C5 counterexample: the claim quantifies over every store *containing* a
fully matching entry, but the scan stops at the first address match.  Here
the second line matches address, algorithm and key exactly, yet the callback
refuses because the first line (same address, different key) decides. -/
theorem check_server_key_refuses_despite_later_matching_entry :
    entryDecides "9.9.9.9" "9.9.9.9 ssh-ed25519 BBBB" = true ∧
    entryKeyMatches "ssh-ed25519" "BBBB" "9.9.9.9 ssh-ed25519 BBBB" = true ∧
    check_server_key "9.9.9.9" (HostKey.mk "ssh-ed25519" "BBBB" [])
        ["9.9.9.9 ssh-rsa AAAA", "9.9.9.9 ssh-ed25519 BBBB"] "no"
      = { accepted := false
          store := ["9.9.9.9 ssh-rsa AAAA", "9.9.9.9 ssh-ed25519 BBBB"]
          prompted := false } := by
  decide

/-- C5 amended: for every host-key store whose *first* deciding entry for the
server's address also carries the presented algorithm and key material, the
callback returns true without prompting the user and without modifying the
store. -/
theorem check_server_key_accepts_on_first_entry_match
    (ip : String) (key : HostKey) (pre post : List String) (line answer : String)
    (hpre : ∀ l ∈ pre, entryDecides ip l = false)
    (hline : entryDecides ip line = true)
    (hsame : entryKeyMatches key.algorithm key.base64 line = true) :
    check_server_key ip key (pre ++ line :: post) answer =
      { accepted := true, store := pre ++ line :: post, prompted := false } := by
  unfold check_server_key
  rw [scanStore_append_of_skip _ _ _ _ _ hpre, scanStore_cons]
  simp [hline, hsame]

/-- C5 witness: a store holding exactly the presented key (after a comment
line) — accepted without prompting, store untouched. -/
theorem check_server_key_accepts_on_first_entry_match_witness :
    check_server_key "6.6.6.6" (HostKey.mk "ssh-ed25519" "KKK" [])
        ["# trusted hosts", "6.6.6.6 ssh-ed25519 KKK"] "no"
      = { accepted := true
          store := ["# trusted hosts", "6.6.6.6 ssh-ed25519 KKK"]
          prompted := false } :=
  check_server_key_accepts_on_first_entry_match "6.6.6.6"
    (HostKey.mk "ssh-ed25519" "KKK" []) ["# trusted hosts"] []
    "6.6.6.6 ssh-ed25519 KKK" "no"
    (by decide) (by decide) (by decide)

/-- C4: on an unknown host the prompt advertises three accepted answers
(`yes`/`no`/the fingerprint), and the claim says exactly `yes` or the literal
fingerprint string accept.  The code disagrees twice: the comparison
`input.as_bytes() == fingerprint.as_bytes()` pits the typed text's UTF-8
bytes against the fingerprint's raw 32-byte digest, so typing the displayed
`SHA256:...` string is *declined* (nothing appended); and `y` (here even
uppercase `Y`, via `eq_ignore_ascii_case`) is *accepted* and appends an
entry, though the claim requires any answer other than `yes`/fingerprint to
be refused. -/
theorem unknown_host_fingerprint_answer_rejected_and_y_accepted :
    check_server_key "1.2.3.4" (HostKey.mk "ssh-ed25519" "CCCC" (List.range 32))
        [] (fingerprintDisplay (HostKey.mk "ssh-ed25519" "CCCC" (List.range 32)))
      = { accepted := false, store := [], prompted := true } ∧
    check_server_key "1.2.3.4" (HostKey.mk "ssh-ed25519" "CCCC" (List.range 32))
        [] "Y"
      = { accepted := true, store := ["1.2.3.4 ssh-ed25519 CCCC"]
          prompted := true } := by
  decide

/-- An opaque error value of an external library (`russh::Error`,
`russh::keys::Error`, `ssh_key::Error`); only its identity matters. -/
structure LibError where
  code : Nat
deriving DecidableEq, Repr

/-- `russh::MethodKind`: the authentication methods a server can advertise. -/
inductive MethodKind where
  | none_
  | password
  | publicKey
  | hostBased
  | keyboardInteractive
deriving DecidableEq, Repr

/-- The name each method renders to (`impl From<&MethodKind> for String`). -/
def MethodKind.name : MethodKind → String
  | .none_ => "none"
  | .password => "password"
  | .publicKey => "publickey"
  | .hostBased => "hostbased"
  | .keyboardInteractive => "keyboard-interactive"

/-- `russh::client::AuthResult`: what every `authenticate_*` call returns on
the `Ok` path — actual success, or failure with the methods that may
continue (the `partial_success` flag is ignored by this program). -/
inductive AuthResult where
  | success
  | failure (remaining_methods : List MethodKind)
deriving DecidableEq, Repr

/-- `russh::keys::HashAlg` (`Default` is SHA-256). -/
inductive HashAlg where
  | sha256
  | sha512
deriving DecidableEq, Repr

/-- Whether some suffix of `hay` starts with `needle`. -/
def suffixesContain (needle : List Char) : List Char → Bool
  | [] => needle.isEmpty
  | c :: rest => needle.isPrefixOf (c :: rest) || suffixesContain needle rest

/-- Substring containment (`str::contains`). -/
def containsSubstr (hay needle : String) : Bool :=
  suffixesContain needle.data hay.data

/-- One identity held by the key agent: its human-readable comment and the
outcome the engine's `authenticate_publickey_with` call would have for it. -/
structure AgentKey where
  comment : String
  result : Except LibError AuthResult
deriving Repr

/-- The reachable key agent's behaviour: the outcome of
`request_identities`. -/
structure AgentBehavior where
  identities : Except LibError (List AgentKey)
deriving Repr

/-- The keyboard-interactive exchange as the server drives it: zero or more
info-request rounds (each answered from the terminal), then a terminal
success, failure, or transport error. -/
inductive KbScript where
  | success
  | failed
  | errored (e : LibError)
  | round (next : KbScript)
deriving DecidableEq, Repr

/-- Everything the external session can answer during `authenticate`: the
outcome of each call the engine may make.  (Each field is consulted at most
once per authentication run, matching the source's single attempt per
method.) -/
structure SessionBehavior where
  auth_none : Except LibError AuthResult
  best_rsa_hash : Except LibError (Option (Option HashAlg))
  agent : Option AgentBehavior
  load_private_key : Except LibError Unit
  load_cert : Except LibError Unit
  auth_cert : Except LibError AuthResult
  auth_publickey : Except LibError AuthResult
  kb : KbScript
  auth_password : Except LibError AuthResult
deriving Repr

/-- `SessionError` (`src/error.rs`) plus the raw `anyhow` propagation used
for agent/hash errors, and `AuthUnavailable`/`AuthFailed`
(`enum SessionError`). -/
inductive SessionError where
  | authUnavailable
  | authFailed (methods : String)
  | privateKey (e : LibError)
  | opensshCert (e : LibError)
  | opensshCertAuth (e : LibError)
  | pubKeyAuth (e : LibError)
  | passwordAuth (e : LibError)
  | keyboardInteractive (e : LibError)
  | lib (e : LibError)
deriving DecidableEq, Repr

/-- `Connection::try_agent_auth`: no agent or no identities means a clean
false; identities are stably re-ordered so that keys whose comment mentions
the address or user come first (`sort_by_key` on the negated match — a
stable sort by a Boolean key keeps the false-keyed elements first, in
order); each key is tried until one call returns `Ok` (`.is_ok()` — note the
server's `AuthResult` inside the `Ok` is not inspected). -/
def try_agent_auth (b : SessionBehavior) (d : ConnectionData) :
    Except SessionError Bool :=
  match b.agent with
  | none => .ok false
  | some ag =>
    match ag.identities with
    | .error e => .error (.lib e)
    | .ok keys =>
      if keys.isEmpty then .ok false
      else
        let prioritized := fun k : AgentKey =>
          containsSubstr k.comment d.address || containsSubstr k.comment d.user
        let sorted := keys.filter (fun k => prioritized k)
          ++ keys.filter (fun k => !(prioritized k))
        .ok (sorted.any fun k => k.result.isOk)

/-- `Connection::try_certificate_auth`: requires both a private-key path and
a certificate path; loads both (their outcomes are behaviour inputs) and
attempts certificate authentication once.  The `AuthResult` value of a
non-erroring call is discarded: the function returns `Ok(true)`
unconditionally. -/
def try_certificate_auth (b : SessionBehavior) (d : ConnectionData) :
    Except SessionError Bool :=
  match d.private_key, d.openssh_cert with
  | some _, some _ =>
    (match b.load_private_key with
     | .error e => .error (.privateKey e)
     | .ok _ =>
       match b.load_cert with
       | .error e => .error (.opensshCert e)
       | .ok _ =>
         match b.auth_cert with
         | .error e => .error (.opensshCertAuth e)
         | .ok _ => .ok true)
  | _, _ => .ok false

/-- `Connection::try_publickey_auth`: requires a private-key path; loads the
key and attempts once.  As in the certificate path, the returned
`AuthResult` is discarded — a non-erroring call yields `Ok(true)`. -/
def try_publickey_auth (b : SessionBehavior) (d : ConnectionData)
    (_hash : Option HashAlg) : Except SessionError Bool :=
  match d.private_key with
  | none => .ok false
  | some _ =>
    match b.load_private_key with
    | .error e => .error (.privateKey e)
    | .ok _ =>
      match b.auth_publickey with
      | .error e => .error (.pubKeyAuth e)
      | .ok _ => .ok true

/-- `Connection::try_keyboard_interactive_auth`: loop over server rounds,
answering prompts, until the server reports success or failure (or the
transport errors). -/
def try_keyboard_interactive_auth : KbScript → Except SessionError Bool
  | .success => .ok true
  | .failed => .ok false
  | .errored e => .error (.keyboardInteractive e)
  | .round next => try_keyboard_interactive_auth next

/-- `Connection::try_password_auth`: prompt for the password and attempt
once.  The `AuthResult` of a non-erroring call is discarded — `Ok(true)` is
returned even when the server answered `AuthResult::Failure`. -/
def try_password_auth (b : SessionBehavior) : Except SessionError Bool :=
  match b.auth_password with
  | .error e => .error (.passwordAuth e)
  | .ok _ => .ok true

/-- The `for method in allowed_methods` loop of `Connection::authenticate`:
recognized methods are attempted in the advertised order with short-circuit
on a `true` result; unrecognized methods (`None`, `HostBased`) fall to the
`_ => continue` arm; exhaustion yields `AuthFailed` naming every offered
method. -/
def auth_loop (b : SessionBehavior) (d : ConnectionData)
    (allowed : List MethodKind) : List MethodKind → Except SessionError Unit
  | [] =>
    .error (.authFailed (String.intercalate ", " (allowed.map MethodKind.name)))
  | m :: rest =>
    match m with
    | .publicKey =>
      (match b.best_rsa_hash with
       | .error e => .error (.lib e)
       | .ok hashMaybe =>
         let hash := hashMaybe.getD (some HashAlg.sha256)
         match try_agent_auth b d with
         | .error e => .error e
         | .ok true => .ok ()
         | .ok false =>
           match try_certificate_auth b d with
           | .error e => .error e
           | .ok true => .ok ()
           | .ok false =>
             match try_publickey_auth b d hash with
             | .error e => .error e
             | .ok true => .ok ()
             | .ok false => auth_loop b d allowed rest)
    | .keyboardInteractive =>
      (match try_keyboard_interactive_auth b.kb with
       | .error e => .error e
       | .ok true => .ok ()
       | .ok false => auth_loop b d allowed rest)
    | .password =>
      (match try_password_auth b with
       | .error e => .error e
       | .ok true => .ok ()
       | .ok false => auth_loop b d allowed rest)
    | _ => auth_loop b d allowed rest

/-- `Connection::authenticate` (`src/client/connect.rs`): try no-credential
authentication first; on success stop; on failure iterate the advertised
methods; an error from `authenticate_none` is `AuthUnavailable`. -/
def authenticate (b : SessionBehavior) (d : ConnectionData) :
    Except SessionError Unit :=
  match b.auth_none with
  | .error _ => .error .authUnavailable
  | .ok .success => .ok ()
  | .ok (.failure allowed) => auth_loop b d allowed allowed

/-- A server that advertises only password authentication and rejects the
offered password (`authenticate_password` returns
`Ok(AuthResult::Failure)`). -/
def passwordRejectingSession : SessionBehavior :=
  { auth_none := .ok (.failure [MethodKind.password])
    best_rsa_hash := .ok none
    agent := none
    load_private_key := .error ⟨1⟩
    load_cert := .error ⟨1⟩
    auth_cert := .error ⟨1⟩
    auth_publickey := .error ⟨1⟩
    kb := .failed
    auth_password := .ok (.failure []) }

/-- The connection data of the C1 run (no key material configured). -/
def c1Data : ConnectionData :=
  { address := "h", user := "alice", port := 22, remote_cmd := none
    known_hosts := "", private_key := none, openssh_cert := none
    config := RusshClientConfig.libDefault }

/-- C1: the engine is claimed to terminate authenticated only when an
attempted method actually succeeds, and to fail naming the offered methods
when every advertised method is exhausted without success.  The code
disagrees: with `[Password]` advertised and the server *rejecting* the
password (`Ok(AuthResult::Failure)`), `try_password_auth` discards the
`AuthResult` and returns `Ok(true)`, so `authenticate` terminates in the
authenticated state. -/
theorem authenticate_reports_success_on_rejected_password :
    passwordRejectingSession.auth_password = .ok (.failure []) ∧
    authenticate passwordRejectingSession c1Data = .ok () := by
  exact ⟨rfl, rfl⟩

/-- One readiness event of the `tokio::select!` relay loop, together with
the outcome of the external call that event triggers (`run_session`,
`src/client/connect.rs`).  `stdinData`/`incomingData`/`tick` carry whether
the triggered channel or stdout operation succeeded (its `?` exits the loop
on error); the `eof()` result is discarded by the source (`_ =`). -/
inductive RelayEvent where
  | stdinErr
  | stdinEof
  | stdinData (sendOk : Bool)
  | incomingData (writeOk : Bool)
  | incomingExit
  | incomingOther
  | incomingNone
  | tick (size : Option (Nat × Nat)) (wcOk : Bool)
deriving DecidableEq, Repr

/-- The loop-carried state of `run_session`: the `stdin_closed` flag, how
many times `channel.eof()` has been called, and the last known terminal
dimensions. -/
structure RelayState where
  stdin_closed : Bool
  eofSent : Nat
  width : Nat
  height : Nat
deriving DecidableEq, Repr

/-- Why the loop ended. -/
inductive ExitCause where
  | exitStatus
  | streamEnd
  | ioError
deriving DecidableEq, Repr

/-- Result of one loop iteration: continue, or leave the loop. -/
inductive StepOut where
  | cont (s : RelayState)
  | halt (s : RelayState) (c : ExitCause)
deriving DecidableEq, Repr

/-- One iteration of the relay loop.  The stdin arm is guarded by
`if !stdin_closed`; a disabled arm cannot fire, which the model renders as
the event leaving the state unchanged.  `Ok(0)` from stdin sets the flag and
sends end-of-file; `ExitStatus` sends end-of-file if the flag is unset and
breaks; a `None` from `channel.wait()` (stream end) just breaks; a changed
terminal size triggers `window_change`. -/
def relayStep (s : RelayState) : RelayEvent → StepOut
  | .stdinErr => if s.stdin_closed then .cont s else .halt s .ioError
  | .stdinEof =>
    if s.stdin_closed then .cont s
    else .cont { s with stdin_closed := true, eofSent := s.eofSent + 1 }
  | .stdinData sendOk =>
    if s.stdin_closed then .cont s
    else if sendOk then .cont s else .halt s .ioError
  | .incomingData writeOk => if writeOk then .cont s else .halt s .ioError
  | .incomingExit =>
    if s.stdin_closed then .halt s .exitStatus
    else .halt { s with eofSent := s.eofSent + 1 } .exitStatus
  | .incomingOther => .cont s
  | .incomingNone => .halt s .streamEnd
  | .tick size wcOk =>
    match size with
    | none => .cont s
    | some (w, h) =>
      if (w, h) ≠ (s.width, s.height) then
        if wcOk then .cont { s with width := w, height := h }
        else .halt s .ioError
      else .cont s

/-- `run_session`'s loop over a finite trace of readiness events: the final
state, and the exit cause if the loop ended within the trace. -/
def run_session : RelayState → List RelayEvent → RelayState × Option ExitCause
  | s, [] => (s, none)
  | s, e :: es =>
    match relayStep s e with
    | .cont s₁ => run_session s₁ es
    | .halt s₁ c => (s₁, some c)

/-- The state at loop entry: stdin open, no end-of-file sent, current
terminal dimensions. -/
def relayInit (w h : Nat) : RelayState := ⟨false, 0, w, h⟩

/-- The loop invariant: while the loop is running, `eof()` has been called
exactly once if `stdin_closed` and never otherwise; on exit at most one
`eof()` has happened, and exactly one when the exit was an `ExitStatus`. -/
theorem run_session_eof_invariant (evs : List RelayEvent) (s : RelayState)
    (hs : s.eofSent = if s.stdin_closed then 1 else 0) :
    (run_session s evs).1.eofSent ≤ 1 ∧
      ((run_session s evs).2 = some ExitCause.exitStatus →
        (run_session s evs).1.eofSent = 1) := by
  induction evs generalizing s with
  | nil =>
    refine ⟨?_, ?_⟩
    · simp only [run_session]; rw [hs]; split <;> omega
    · intro h; simp [run_session] at h
  | cons e rest ih =>
    cases e with
    | stdinErr =>
      cases hc : s.stdin_closed with
      | true => simpa [run_session, relayStep, hc] using ih s hs
      | false => simp [run_session, relayStep, hc, hs]
    | stdinEof =>
      cases hc : s.stdin_closed with
      | true => simpa [run_session, relayStep, hc] using ih s hs
      | false =>
        simp only [run_session, relayStep, hc, Bool.false_eq_true, if_false]
        exact ih _ (by simp [hs, hc])
    | stdinData sendOk =>
      cases hc : s.stdin_closed with
      | true => simpa [run_session, relayStep, hc] using ih s hs
      | false =>
        cases sendOk with
        | true => simpa [run_session, relayStep, hc] using ih s hs
        | false => simp [run_session, relayStep, hc, hs]
    | incomingData writeOk =>
      cases writeOk with
      | true => simpa [run_session, relayStep] using ih s hs
      | false =>
        refine ⟨?_, ?_⟩
        · simp only [run_session, relayStep, Bool.false_eq_true, if_false]
          rw [hs]; split <;> omega
        · intro h; simp [run_session, relayStep] at h
    | incomingExit =>
      cases hc : s.stdin_closed with
      | true => simp [run_session, relayStep, hc, hs]
      | false => simp [run_session, relayStep, hc, hs]
    | incomingOther => simpa [run_session, relayStep] using ih s hs
    | incomingNone =>
      refine ⟨?_, ?_⟩
      · simp only [run_session, relayStep]
        rw [hs]; split <;> omega
      · intro h; simp [run_session, relayStep] at h
    | tick size wcOk =>
      cases size with
      | none => simpa [run_session, relayStep] using ih s hs
      | some wh =>
        obtain ⟨w2, h2⟩ := wh
        by_cases hwh : (w2, h2) = (s.width, s.height)
        · simpa [run_session, relayStep, hwh] using ih s hs
        · cases wcOk with
          | true =>
            have step : relayStep s (RelayEvent.tick (some (w2, h2)) true)
                = StepOut.cont { s with width := w2, height := h2 } := by
              simp [relayStep, hwh]
            simp only [run_session, step]
            exact ih _ (by simp [hs])
          | false =>
            refine ⟨?_, ?_⟩
            · simp only [run_session, relayStep, hwh, ne_eq, not_false_eq_true,
                if_true, Bool.false_eq_true, if_false]
              rw [hs]; split <;> omega
            · intro h
              simp [run_session, relayStep, hwh] at h

/-- C8 counterexample: when the incoming stream ends without an exit status
(`channel.wait()` yields `None`), the loop breaks immediately; the
end-of-file signal has never been sent, although the claim requires it to
precede every exit caused by the remote side closing first. -/
theorem run_session_stream_end_exit_without_eof :
    run_session (relayInit 80 24) [RelayEvent.incomingNone]
      = (relayInit 80 24, some ExitCause.streamEnd) ∧
    (relayInit 80 24).eofSent = 0 := by
  decide

/-- C8 amended: over any run of the relay loop started fresh, the
end-of-file signal is sent at most once; and whenever the loop exits because
of an `ExitStatus` event, the end-of-file signal has been sent (exactly
once) by the time the loop exits.  (When the incoming stream simply ends, the
loop exits without sending end-of-file.) -/
theorem run_session_eof_at_most_once_and_before_exit_status
    (evs : List RelayEvent) (w h : Nat) :
    (run_session (relayInit w h) evs).1.eofSent ≤ 1 ∧
      ((run_session (relayInit w h) evs).2 = some ExitCause.exitStatus →
        (run_session (relayInit w h) evs).1.eofSent = 1) :=
  run_session_eof_invariant evs (relayInit w h) rfl

/-- C8 witness: a run that receives data, sees local EOF, then the remote
exit status — the loop exits with exactly one end-of-file sent. -/
theorem run_session_eof_at_most_once_and_before_exit_status_witness :
    (run_session (relayInit 80 24)
        [RelayEvent.incomingData true, RelayEvent.stdinEof,
         RelayEvent.incomingExit]).1.eofSent ≤ 1 ∧
    (run_session (relayInit 80 24)
        [RelayEvent.incomingData true, RelayEvent.stdinEof,
         RelayEvent.incomingExit]).1.eofSent = 1 :=
  ⟨(run_session_eof_at_most_once_and_before_exit_status
      [RelayEvent.incomingData true, RelayEvent.stdinEof,
       RelayEvent.incomingExit] 80 24).1,
   (run_session_eof_at_most_once_and_before_exit_status
      [RelayEvent.incomingData true, RelayEvent.stdinEof,
       RelayEvent.incomingExit] 80 24).2 (by decide)⟩

/-- Resolution-time errors of `resolve_server` (`src/lib.rs`): a dangling
scope reference, or an invalid regular expression surfaced by `Regex::new`
(its message kept as a string). -/
inductive ResolveError where
  | scopeNotFound (s : String)
  | regex (e : String)
deriving DecidableEq, Repr

/-- The scoped regex loop of `resolve_server`: iterate the scoped entries in
insertion order, treat each entry's name as a pattern, select the first that
matches (substituting the `$h` placeholder); a pattern-compile error
propagates. -/
def findScopedRegexMatch (re : String → String → Except String Bool)
    (host : String) : List (String × ScopedServer) → Except String (Option Server)
  | [] => .ok none
  | (pattern, ss) :: rest =>
    match re pattern host with
    | .error e => .error e
    | .ok true => .ok (some ((ScopedServer.toServer ss).apply_host_placeholder host))
    | .ok false => findScopedRegexMatch re host rest

/-- The global regex loop of `resolve_server`: same, but only `Global`
entries compile their pattern (`if let ServerEntry::Global(server) = entry
&& Regex::new(pattern)?.is_match(host)`). -/
def findGlobalRegexMatch (re : String → String → Except String Bool)
    (host : String) : List (String × ServerEntry) → Except String (Option Server)
  | [] => .ok none
  | (pattern, ServerEntry.global ss) :: rest =>
    (match re pattern host with
     | .error e => .error e
     | .ok true => .ok (some ((ScopedServer.toServer ss).apply_host_placeholder host))
     | .ok false => findGlobalRegexMatch re host rest)
  | _ :: rest => findGlobalRegexMatch re host rest

/-- The current-scope half of `resolve_server` (`src/lib.rs:142-167`): if the
current scope names a scoped entry group, look for an exact-name match (no
placeholder substitution), else run the scoped regex loop; a found server is
merged against the enclosing named scope, which must exist. -/
def resolve_scoped (re : String → String → Except String Bool) (host : String)
    (config : Config) (current_scope : String) : Except ResolveError (Option Server) :=
  match List.lookup current_scope config.servers with
  | some (ServerEntry.scope scoped_servers) =>
    (match
      (match List.lookup host scoped_servers with
       | some ss => Except.ok (some (ScopedServer.toServer ss))
       | none => findScopedRegexMatch re host scoped_servers)
    with
    | .error e => .error (ResolveError.regex e)
    | .ok (some srv) =>
      (match List.lookup current_scope config.scopes with
       | some sc => .ok (some (srv.apply_scope sc))
       | none => .error (ResolveError.scopeNotFound current_scope))
    | .ok none => .ok none)
  | _ => .ok none

/-- `resolve_server` (`src/lib.rs`): the scoped search first; if it yields
nothing, an exact-name `Global` match (no placeholder substitution), then the
global regex loop; `none` means the caller falls back to the raw host. -/
def resolve_server (re : String → String → Except String Bool) (host : String)
    (config : Config) (current_scope : String) : Except ResolveError (Option Server) :=
  match resolve_scoped re host config current_scope with
  | .error e => .error e
  | .ok (some srv) => .ok (some srv)
  | .ok none =>
    match List.lookup host config.servers with
    | some (ServerEntry.global ss) => .ok (some (ScopedServer.toServer ss))
    | _ =>
      match findGlobalRegexMatch re host config.servers with
      | .error e => .error (ResolveError.regex e)
      | .ok r => .ok r

/-- A global entry whose pattern fails to match the host (scoped groups are
passed over without compiling their name). -/
def globalPatternMisses (re : String → String → Except String Bool)
    (host : String) : String × ServerEntry → Prop
  | (k, ServerEntry.global _) => re k host = Except.ok false
  | (_, ServerEntry.scope _) => True

instance (re : String → String → Except String Bool) (host : String) :
    (kv : String × ServerEntry) → Decidable (globalPatternMisses re host kv)
  | (k, ServerEntry.global _) =>
    inferInstanceAs (Decidable (re k host = Except.ok false))
  | (_, ServerEntry.scope _) => inferInstanceAs (Decidable True)

/-- Entries whose pattern does not match (or which are scoped groups) are
passed over by the global regex loop. -/
theorem findGlobalRegexMatch_append_of_no_match
    (re : String → String → Except String Bool) (host : String)
    (pre rest : List (String × ServerEntry))
    (hpre : ∀ kv ∈ pre, globalPatternMisses re host kv) :
    findGlobalRegexMatch re host (pre ++ rest) = findGlobalRegexMatch re host rest := by
  induction pre with
  | nil => rfl
  | cons hd tl ih =>
    obtain ⟨k, entry⟩ := hd
    cases entry with
    | global ss =>
      have h : re k host = Except.ok false := hpre (k, ServerEntry.global ss) (by simp)
      rw [List.cons_append]
      simp only [findGlobalRegexMatch, h]
      exact ih fun kv hkv => hpre kv (by simp [hkv])
    | scope m =>
      rw [List.cons_append]
      simp only [findGlobalRegexMatch]
      exact ih fun kv hkv => hpre kv (by simp [hkv])

/-- C10: when no exact-name match exists (neither a scoped group for the
current scope nor a global entry named exactly `host`), a configured entry
name acts as a regular-expression search against the host: the first entry
in insertion order whose pattern matches (`is_match` — an unanchored search,
so matching anywhere inside the host suffices) is selected, with the `$h`
placeholder substituted.  The witness instantiates the matcher with literal
substring search and a one-character entry name matching a proper substring
of the host. -/
theorem resolve_server_unanchored_first_regex_match
    (re : String → String → Except String Bool) (host current_scope : String)
    (d : Option Scope) (scopes : List (String × Scope))
    (entries pre post : List (String × ServerEntry)) (p : String) (ss : ScopedServer)
    (hsplit : entries = pre ++ (p, ServerEntry.global ss) :: post)
    (hcs : List.lookup current_scope entries = none)
    (hnoexact : List.lookup host entries = none)
    (hpre : ∀ kv ∈ pre, globalPatternMisses re host kv)
    (hp : re p host = Except.ok true) :
    resolve_server re host (Config.mk d scopes entries) current_scope
      = Except.ok (some ((ScopedServer.toServer ss).apply_host_placeholder host)) := by
  subst hsplit
  unfold resolve_server
  have hscoped : resolve_scoped re host
      (Config.mk d scopes (pre ++ (p, ServerEntry.global ss) :: post)) current_scope
      = Except.ok none := by
    unfold resolve_scoped
    simp only
    rw [hcs]
  rw [hscoped]
  simp only
  rw [hnoexact]
  rw [findGlobalRegexMatch_append_of_no_match re host pre _ hpre]
  simp only [findGlobalRegexMatch, hp]

/-- `Regex::is_match` for a metacharacter-free pattern: the unanchored
search succeeds exactly when the pattern occurs as a substring of the
host (this is what `regex_lite` computes for literal patterns). -/
def literalSearch (pattern hay : String) : Except String Bool :=
  .ok (containsSubstr hay pattern)

/-- C10 witness: entry names `zzz` (no match) and `x`; host `axb` has no
exact entry, `x` matches only a proper substring of it, and `$h.internal`
resolves to `axb.internal`. -/
theorem resolve_server_unanchored_first_regex_match_witness :
    resolve_server literalSearch "axb"
        (Config.mk none []
          [("zzz", ServerEntry.global (ScopedServer.address "other")),
           ("x", ServerEntry.global (ScopedServer.address "$h.internal"))]) ""
      = Except.ok (some ((ScopedServer.toServer
          (ScopedServer.address "$h.internal")).apply_host_placeholder "axb")) :=
  resolve_server_unanchored_first_regex_match literalSearch "axb" "" none []
    [("zzz", ServerEntry.global (ScopedServer.address "other")),
     ("x", ServerEntry.global (ScopedServer.address "$h.internal"))]
    [("zzz", ServerEntry.global (ScopedServer.address "other"))] []
    "x" (ScopedServer.address "$h.internal")
    (by decide) (by decide) (by decide) (by decide) (by decide)

/-- A YAML value tree, the image of `serde_yml` serialization for this
configuration (strings, numbers, sequences, mappings).  Round-tripping is
modelled at this level: the YAML text layer is a faithful rendering of this
tree. -/
inductive Yval where
  | str (s : String)
  | nat (n : Nat)
  | seq (xs : List Yval)
  | map (entries : List (String × Yval))

/-- One field under `#[skip_serializing_none]`: absent fields serialize to
nothing, present ones to a single keyed value. -/
def optField {α : Type} (k : String) (f : α → Yval) : Option α → List (String × Yval)
  | none => []
  | some v => [(k, f v)]

/-- An algorithm-name list serializes as a sequence of strings. -/
def strListVal (xs : List String) : Yval := .seq (xs.map .str)

/-- Serialization of a `Scope`'s fields, in declaration order
(`#[skip_serializing_none] struct Scope`). -/
def Scope.encodeFields (s : Scope) : List (String × Yval) :=
  optField "user" Yval.str s.user ++
  optField "port" Yval.nat s.port ++
  optField "known_hosts" Yval.str s.known_hosts ++
  optField "private_key" Yval.str s.private_key ++
  optField "openssh_cert" Yval.str s.openssh_cert ++
  optField "kex" strListVal s.kex ++
  optField "alg" strListVal s.alg ++
  optField "cipher" strListVal s.cipher ++
  optField "mac" strListVal s.mac ++
  optField "timeout" Yval.nat s.timeout ++
  optField "interval" Yval.nat s.interval ++
  optField "retries" Yval.nat s.retries

/-- Expect a string value. -/
def asStr : Yval → Except Unit String
  | .str s => .ok s
  | _ => .error ()

/-- Expect a number value. -/
def asNat : Yval → Except Unit Nat
  | .nat n => .ok n
  | _ => .error ()

/-- Decode a sequence of strings elementwise. -/
def decodeStrs : List Yval → Except Unit (List String)
  | [] => .ok []
  | v :: rest =>
    match asStr v, decodeStrs rest with
    | .ok s, .ok tl => .ok (s :: tl)
    | .error e, _ => .error e
    | _, .error e => .error e

/-- Expect a sequence of strings. -/
def asStrList : Yval → Except Unit (List String)
  | .seq xs => decodeStrs xs
  | _ => .error ()

/-- Deserialize one optional field from a mapping: absent is fine, present
must decode (serde's derived behaviour for an `Option` field; unknown keys
elsewhere in the mapping are ignored). -/
def getOpt {α : Type} (dec : Yval → Except Unit α)
    (m : List (String × Yval)) (k : String) : Except Unit (Option α) :=
  match List.lookup k m with
  | none => .ok none
  | some v => (dec v).map some

/-- Deserialization of a `Scope` from a mapping's entries (derived serde
impl: each known field optional, unknown keys ignored). -/
def Scope.decodeFields (m : List (String × Yval)) : Except Unit Scope := do
  let user ← getOpt asStr m "user"
  let port ← getOpt asNat m "port"
  let known_hosts ← getOpt asStr m "known_hosts"
  let private_key ← getOpt asStr m "private_key"
  let openssh_cert ← getOpt asStr m "openssh_cert"
  let kex ← getOpt asStrList m "kex"
  let alg ← getOpt asStrList m "alg"
  let cipher ← getOpt asStrList m "cipher"
  let mac ← getOpt asStrList m "mac"
  let timeout ← getOpt asNat m "timeout"
  let interval ← getOpt asNat m "interval"
  let retries ← getOpt asNat m "retries"
  pure { user, port, known_hosts, private_key, openssh_cert, kex, alg,
         cipher, mac, timeout, interval, retries }

/-- `Server` serialization: the required `address` field followed by the
`#[serde(flatten)]`ed scope fields. -/
def Server.encode (s : Server) : Yval :=
  .map (("address", Yval.str s.address) :: Scope.encodeFields s.scope)

/-- `Server` deserialization: a mapping with a string `address`; the
remainder feeds the flattened `Scope`.  Since `Scope` has no field named
`address` and ignores unknown keys, handing it the full mapping is
equivalent to handing it the remainder. -/
def Server.decode : Yval → Except Unit Server
  | .map m =>
    (match List.lookup "address" m with
     | some (Yval.str a) =>
       (match Scope.decodeFields m with
        | .ok sc => .ok { address := a, scope := sc }
        | .error e => .error e)
     | _ => .error ())
  | _ => .error ()

/-- `ScopedServer` (untagged): a bare address is a string, an override is a
`Server` mapping. -/
def ScopedServer.encode : ScopedServer → Yval
  | .address a => .str a
  | .override_ s => Server.encode s

/-- Untagged deserialization tries the simple string form first, falling
back to the structured `Server` form. -/
def ScopedServer.decode (v : Yval) : Except Unit ScopedServer :=
  match v with
  | .str a => .ok (.address a)
  | _ =>
    match Server.decode v with
    | .ok s => .ok (.override_ s)
    | .error e => .error e

/-- Deserialize a mapping's values elementwise, preserving order (the
`IndexMap` deserializer). -/
def decodeEntries {α : Type} (dec : Yval → Except Unit α) :
    List (String × Yval) → Except Unit (List (String × α))
  | [] => .ok []
  | (k, v) :: rest =>
    match dec v, decodeEntries dec rest with
    | .ok a, .ok tl => .ok ((k, a) :: tl)
    | .error e, _ => .error e
    | _, .error e => .error e

/-- `ServerEntry` (untagged): one global server value, or a mapping of
scoped servers. -/
def ServerEntry.encode : ServerEntry → Yval
  | .global ss => ss.encode
  | .scope m => .map (m.map fun kv => (kv.1, ScopedServer.encode kv.2))

/-- Untagged deserialization tries the `Global` (single `ScopedServer`)
variant first, then the scoped mapping. -/
def ServerEntry.decode (v : Yval) : Except Unit ServerEntry :=
  match ScopedServer.decode v with
  | .ok ss => .ok (.global ss)
  | .error _ =>
    match v with
    | .map m =>
      (match decodeEntries ScopedServer.decode m with
       | .ok tl => .ok (.scope tl)
       | .error e => .error e)
    | _ => .error ()

/-- A named scope's value is a `Scope` mapping. -/
def decodeScopeVal : Yval → Except Unit Scope
  | .map m => Scope.decodeFields m
  | _ => .error ()

/-- `Config` serialization (`StorageProvider for Config`): the optional
default scope is `#[serde(flatten)]`ed at top level (absent default emits
nothing), then the `scopes` and `servers` mappings. -/
def Config.encode (c : Config) : Yval :=
  .map
    ((match c.default with
      | none => []
      | some s => Scope.encodeFields s) ++
     [("scopes", Yval.map (c.scopes.map fun kv => (kv.1, Yval.map (Scope.encodeFields kv.2)))),
      ("servers", Yval.map (c.servers.map fun kv => (kv.1, ServerEntry.encode kv.2)))])

/-- `Config` deserialization: `scopes` and `servers` are required mappings;
every other top-level key feeds the flattened `Option<Scope>`, which serde
materializes as `Some(..)` even when empty; the
`empty_scope_is_none` adapter (`src/cli/parser.rs`) then collapses an empty
scope to `None`. -/
def Config.decode : Yval → Except Unit Config
  | .map m =>
    (match Scope.decodeFields
        (m.filter fun kv => !(kv.1 == "scopes") && !(kv.1 == "servers")) with
     | .error e => .error e
     | .ok d =>
       match List.lookup "scopes" m with
       | some (Yval.map sm) =>
         (match decodeEntries decodeScopeVal sm with
          | .error e => .error e
          | .ok scopes =>
            match List.lookup "servers" m with
            | some (Yval.map vm) =>
              (match decodeEntries ServerEntry.decode vm with
               | .error e => .error e
               | .ok servers =>
                 .ok { default := if d.is_empty then none else some d
                       scopes := scopes, servers := servers })
            | _ => .error ())
       | _ => .error ())
  | _ => .error ()

/-- The only difference a reload can make: an explicitly empty default scope
collapses to absent. -/
def Config.normalizeDefault (c : Config) : Config :=
  { c with default :=
      match c.default with
      | none => none
      | some s => if s.is_empty then none else some s }

/-- A serialized optional field with a different key is transparent to
lookup. -/
theorem lookup_optField_skip {α : Type} {k2 k : String} (f : α → Yval)
    (o : Option α) (l : List (String × Yval)) (h : (k2 == k) = false) :
    List.lookup k2 (optField k f o ++ l) = List.lookup k2 l := by
  cases o <;> simp [optField, List.lookup, h]

/-- `optField` on a present/absent value (constructor forms only, so that
abstract options stay folded). -/
theorem optField_none {α : Type} (k : String) (f : α → Yval) :
    optField k f none = [] := rfl

theorem optField_some {α : Type} (k : String) (f : α → Yval) (v : α) :
    optField k f (some v) = [(k, f v)] := rfl

/-- Lookup misses a lone serialized field with a different key. -/
theorem lookup_optField_ne {α : Type} {k2 k : String} (f : α → Yval)
    (o : Option α) (h : (k2 == k) = false) :
    List.lookup k2 (optField k f o) = none := by
  cases o <;> simp [optField, List.lookup, h]

/-- A consed entry with a different key is transparent to `getOpt`. -/
theorem getOpt_skip_cons {α : Type} (dec : Yval → Except Unit α)
    (k k2 : String) (v : Yval) (l : List (String × Yval)) (h : (k2 == k) = false) :
    getOpt dec ((k, v) :: l) k2 = getOpt dec l k2 := by
  simp [getOpt, List.lookup, h]

/-- String sequences decode back to their source list. -/
theorem decodeStrs_map_str (xs : List String) :
    decodeStrs (xs.map Yval.str) = Except.ok xs := by
  induction xs with
  | nil => rfl
  | cons hd tl ih => simp [decodeStrs, asStr, ih]

theorem getOpt_enc_user (s : Scope) :
    getOpt asStr (Scope.encodeFields s) "user" = Except.ok s.user := by
  cases h : s.user <;>
    simp +decide [getOpt, Scope.encodeFields, optField_none, optField_some,
      List.lookup, lookup_optField_skip, lookup_optField_ne, Except.map, h, asStr]

theorem getOpt_enc_port (s : Scope) :
    getOpt asNat (Scope.encodeFields s) "port" = Except.ok s.port := by
  cases h : s.port <;>
    simp +decide [getOpt, Scope.encodeFields, optField_none, optField_some,
      List.lookup, lookup_optField_skip, lookup_optField_ne, Except.map, h, asNat]

theorem getOpt_enc_known_hosts (s : Scope) :
    getOpt asStr (Scope.encodeFields s) "known_hosts" = Except.ok s.known_hosts := by
  cases h : s.known_hosts <;>
    simp +decide [getOpt, Scope.encodeFields, optField_none, optField_some,
      List.lookup, lookup_optField_skip, lookup_optField_ne, Except.map, h, asStr]

theorem getOpt_enc_private_key (s : Scope) :
    getOpt asStr (Scope.encodeFields s) "private_key" = Except.ok s.private_key := by
  cases h : s.private_key <;>
    simp +decide [getOpt, Scope.encodeFields, optField_none, optField_some,
      List.lookup, lookup_optField_skip, lookup_optField_ne, Except.map, h, asStr]

theorem getOpt_enc_openssh_cert (s : Scope) :
    getOpt asStr (Scope.encodeFields s) "openssh_cert" = Except.ok s.openssh_cert := by
  cases h : s.openssh_cert <;>
    simp +decide [getOpt, Scope.encodeFields, optField_none, optField_some,
      List.lookup, lookup_optField_skip, lookup_optField_ne, Except.map, h, asStr]

theorem getOpt_enc_kex (s : Scope) :
    getOpt asStrList (Scope.encodeFields s) "kex" = Except.ok s.kex := by
  cases h : s.kex <;>
    simp +decide [getOpt, Scope.encodeFields, optField_none, optField_some,
      List.lookup, lookup_optField_skip, lookup_optField_ne, Except.map, h, asStrList, strListVal, decodeStrs_map_str]

theorem getOpt_enc_alg (s : Scope) :
    getOpt asStrList (Scope.encodeFields s) "alg" = Except.ok s.alg := by
  cases h : s.alg <;>
    simp +decide [getOpt, Scope.encodeFields, optField_none, optField_some,
      List.lookup, lookup_optField_skip, lookup_optField_ne, Except.map, h, asStrList, strListVal, decodeStrs_map_str]

theorem getOpt_enc_cipher (s : Scope) :
    getOpt asStrList (Scope.encodeFields s) "cipher" = Except.ok s.cipher := by
  cases h : s.cipher <;>
    simp +decide [getOpt, Scope.encodeFields, optField_none, optField_some,
      List.lookup, lookup_optField_skip, lookup_optField_ne, Except.map, h, asStrList, strListVal, decodeStrs_map_str]

theorem getOpt_enc_mac (s : Scope) :
    getOpt asStrList (Scope.encodeFields s) "mac" = Except.ok s.mac := by
  cases h : s.mac <;>
    simp +decide [getOpt, Scope.encodeFields, optField_none, optField_some,
      List.lookup, lookup_optField_skip, lookup_optField_ne, Except.map, h, asStrList, strListVal, decodeStrs_map_str]

theorem getOpt_enc_timeout (s : Scope) :
    getOpt asNat (Scope.encodeFields s) "timeout" = Except.ok s.timeout := by
  cases h : s.timeout <;>
    simp +decide [getOpt, Scope.encodeFields, optField_none, optField_some,
      List.lookup, lookup_optField_skip, lookup_optField_ne, Except.map, h, asNat]

theorem getOpt_enc_interval (s : Scope) :
    getOpt asNat (Scope.encodeFields s) "interval" = Except.ok s.interval := by
  cases h : s.interval <;>
    simp +decide [getOpt, Scope.encodeFields, optField_none, optField_some,
      List.lookup, lookup_optField_skip, lookup_optField_ne, Except.map, h, asNat]

theorem getOpt_enc_retries (s : Scope) :
    getOpt asNat (Scope.encodeFields s) "retries" = Except.ok s.retries := by
  cases h : s.retries <;>
    simp +decide [getOpt, Scope.encodeFields, optField_none, optField_some,
      List.lookup, lookup_optField_skip, lookup_optField_ne, Except.map, h, asNat]

/-- A serialized `Scope` decodes back to itself. -/
theorem scope_decode_encode (s : Scope) :
    Scope.decodeFields (Scope.encodeFields s) = Except.ok s := by
  simp [Scope.decodeFields, getOpt_enc_user, getOpt_enc_port,
    getOpt_enc_known_hosts, getOpt_enc_private_key, getOpt_enc_openssh_cert,
    getOpt_enc_kex, getOpt_enc_alg, getOpt_enc_cipher, getOpt_enc_mac,
    getOpt_enc_timeout, getOpt_enc_interval, getOpt_enc_retries,
    Bind.bind, Except.bind, Pure.pure, Except.pure]

/-- A serialized `Scope` prefixed by the consumed `address` key decodes back
to itself (the flattened remainder inside a `Server` mapping). -/
theorem scope_decode_encode_cons_address (a : Yval) (s : Scope) :
    Scope.decodeFields (("address", a) :: Scope.encodeFields s) = Except.ok s := by
  simp +decide [Scope.decodeFields, getOpt_skip_cons, getOpt_enc_user,
    getOpt_enc_port, getOpt_enc_known_hosts, getOpt_enc_private_key,
    getOpt_enc_openssh_cert, getOpt_enc_kex, getOpt_enc_alg,
    getOpt_enc_cipher, getOpt_enc_mac, getOpt_enc_timeout,
    getOpt_enc_interval, getOpt_enc_retries, Bind.bind, Except.bind,
    Pure.pure, Except.pure]

/-- A serialized `Server` decodes back to itself. -/
theorem server_decode_encode (s : Server) :
    Server.decode (Server.encode s) = Except.ok s := by
  simp [Server.encode, Server.decode, List.lookup, scope_decode_encode_cons_address]

/-- A serialized `ScopedServer` decodes back to itself (the string try
succeeds exactly for the bare-address form). -/
theorem scoped_server_decode_encode (ss : ScopedServer) :
    ScopedServer.decode (ScopedServer.encode ss) = Except.ok ss := by
  cases ss with
  | address a => rfl
  | override_ s =>
    simp [ScopedServer.encode, ScopedServer.decode, Server.encode,
      Server.decode, List.lookup, scope_decode_encode_cons_address]

/-- A serialized scoped-server mapping decodes back entrywise. -/
theorem decodeEntries_encode_scoped (m : List (String × ScopedServer)) :
    decodeEntries ScopedServer.decode
        (m.map fun kv => (kv.1, ScopedServer.encode kv.2)) = Except.ok m := by
  induction m with
  | nil => rfl
  | cons hd tl ih =>
    obtain ⟨k, ss⟩ := hd
    simp [decodeEntries, scoped_server_decode_encode, ih]

/-- Lookup commutes with entrywise encoding of a mapping's values. -/
theorem lookup_map_scoped_encode (k : String) (m : List (String × ScopedServer)) :
    List.lookup k (m.map fun kv => (kv.1, ScopedServer.encode kv.2))
      = (List.lookup k m).map ScopedServer.encode := by
  induction m with
  | nil => rfl
  | cons hd tl ih =>
    obtain ⟨k2, ss⟩ := hd
    by_cases h : (k == k2) = true <;> simp [List.lookup, h, ih]

/-- A scoped group with no entry named `address`: the condition under which
the untagged `ServerEntry` decoding restores the `Scope` variant. -/
def scopedGroupLacksAddressKey : String × ServerEntry → Prop
  | (_, ServerEntry.scope m) => List.lookup "address" m = none
  | (_, ServerEntry.global _) => True

instance : (kv : String × ServerEntry) → Decidable (scopedGroupLacksAddressKey kv)
  | (_, ServerEntry.scope m) =>
    inferInstanceAs (Decidable (List.lookup "address" m = none))
  | (_, ServerEntry.global _) => inferInstanceAs (Decidable True)

/-- A serialized `ServerEntry` decodes back to itself provided a scoped
group has no entry named `address` (otherwise the untagged decoding takes
the `Global`/`Override` branch instead). -/
theorem ServerEntry.decode_encode (k : String) (e : ServerEntry)
    (h : scopedGroupLacksAddressKey (k, e)) :
    ServerEntry.decode (ServerEntry.encode e) = Except.ok e := by
  cases e with
  | global ss =>
    cases ss with
    | address a => rfl
    | override_ s =>
      simp [ServerEntry.encode, ServerEntry.decode, ScopedServer.encode,
        ScopedServer.decode, Server.encode, Server.decode, List.lookup,
        scope_decode_encode_cons_address]
  | scope m =>
    have haddr : List.lookup "address" m = none := h
    simp [ServerEntry.encode, ServerEntry.decode, ScopedServer.decode,
      Server.decode, lookup_map_scoped_encode, haddr,
      decodeEntries_encode_scoped]

/-- A serialized `servers` mapping decodes back entrywise under the same
side condition. -/
theorem decodeEntries_encode_servers (l : List (String × ServerEntry))
    (h : ∀ kv ∈ l, scopedGroupLacksAddressKey kv) :
    decodeEntries ServerEntry.decode
        (l.map fun kv => (kv.1, ServerEntry.encode kv.2)) = Except.ok l := by
  induction l with
  | nil => rfl
  | cons hd tl ih =>
    obtain ⟨k, e⟩ := hd
    have he : ServerEntry.decode (ServerEntry.encode e) = Except.ok e :=
      ServerEntry.decode_encode k e (h (k, e) (by simp))
    simp [decodeEntries, he, ih fun kv hkv => h kv (by simp [hkv])]

/-- A serialized `scopes` mapping decodes back entrywise. -/
theorem decodeEntries_encode_scopes (l : List (String × Scope)) :
    decodeEntries decodeScopeVal
        (l.map fun kv => (kv.1, Yval.map (Scope.encodeFields kv.2))) = Except.ok l := by
  induction l with
  | nil => rfl
  | cons hd tl ih =>
    obtain ⟨k, sc⟩ := hd
    simp [decodeEntries, decodeScopeVal, scope_decode_encode, ih]

/-- Filtering keeps a serialized field block whose key satisfies the
predicate. -/
theorem filter_optField_of_key {α : Type} (p : String × Yval → Bool) (k : String)
    (f : α → Yval) (o : Option α) (l : List (String × Yval))
    (h : ∀ v : Yval, p (k, v) = true) :
    List.filter p (optField k f o ++ l) = optField k f o ++ List.filter p l := by
  cases o <;> simp [optField, List.filter, h]

theorem filter_scopes_servers_pair (a b : Yval) :
    List.filter (fun kv => !(kv.1 == "scopes") && !(kv.1 == "servers"))
      [("scopes", a), ("servers", b)] = [] := rfl

theorem lookup_scopes_pair (a b : Yval) :
    List.lookup "scopes" [("scopes", a), ("servers", b)] = some a := rfl

theorem lookup_servers_pair (a b : Yval) :
    List.lookup "servers" [("scopes", a), ("servers", b)] = some b := rfl

/-- The flattened remainder of a serialized `Config` with a present default
scope is exactly that scope's field list. -/
theorem filter_rest_config (s : Scope) (a b : Yval) :
    List.filter (fun kv => !(kv.1 == "scopes") && !(kv.1 == "servers"))
        (Scope.encodeFields s ++ [("scopes", a), ("servers", b)])
      = Scope.encodeFields s := by
  unfold Scope.encodeFields
  simp only [List.append_assoc]
  rw [filter_optField_of_key _ "user" _ _ _ (fun v => rfl),
      filter_optField_of_key _ "port" _ _ _ (fun v => rfl),
      filter_optField_of_key _ "known_hosts" _ _ _ (fun v => rfl),
      filter_optField_of_key _ "private_key" _ _ _ (fun v => rfl),
      filter_optField_of_key _ "openssh_cert" _ _ _ (fun v => rfl),
      filter_optField_of_key _ "kex" _ _ _ (fun v => rfl),
      filter_optField_of_key _ "alg" _ _ _ (fun v => rfl),
      filter_optField_of_key _ "cipher" _ _ _ (fun v => rfl),
      filter_optField_of_key _ "mac" _ _ _ (fun v => rfl),
      filter_optField_of_key _ "timeout" _ _ _ (fun v => rfl),
      filter_optField_of_key _ "interval" _ _ _ (fun v => rfl),
      filter_optField_of_key _ "retries" _ _ _ (fun v => rfl),
      filter_scopes_servers_pair]
  simp

theorem lookup_scopes_config (s : Scope) (a b : Yval) :
    List.lookup "scopes" (Scope.encodeFields s ++ [("scopes", a), ("servers", b)])
      = some a := by
  unfold Scope.encodeFields
  simp only [List.append_assoc]
  simp +decide [lookup_optField_skip, lookup_scopes_pair]

theorem lookup_servers_config (s : Scope) (a b : Yval) :
    List.lookup "servers" (Scope.encodeFields s ++ [("scopes", a), ("servers", b)])
      = some b := by
  unfold Scope.encodeFields
  simp only [List.append_assoc]
  simp +decide [lookup_optField_skip, lookup_servers_pair]

/-- C9: serializing a `Config` and deserializing the result reproduces an
equal structure, with the claimed exception (an explicitly empty default
scope collapses to absent), *provided* no scoped server group contains an
entry named `address` — the amendment the untagged encoding forces (see the
counterexample). -/
theorem config_roundtrip_up_to_empty_default (c : Config)
    (h : ∀ kv ∈ c.servers, scopedGroupLacksAddressKey kv) :
    Config.decode (Config.encode c) = Except.ok (Config.normalizeDefault c) := by
  obtain ⟨d, scopes, servers⟩ := c
  cases d with
  | none =>
    simp only [Config.encode, List.nil_append, Config.decode,
      filter_scopes_servers_pair, lookup_scopes_pair, lookup_servers_pair,
      decodeEntries_encode_scopes, decodeEntries_encode_servers servers h]
    simp [Config.normalizeDefault, Scope.is_empty, Scope.decodeFields, getOpt,
      List.lookup, Bind.bind, Except.bind, Pure.pure, Except.pure, Scope.default]
  | some s =>
    simp only [Config.encode, Config.decode, filter_rest_config,
      lookup_scopes_config, lookup_servers_config, scope_decode_encode,
      decodeEntries_encode_scopes, decodeEntries_encode_servers servers h]
    simp [Config.normalizeDefault, Scope.is_empty]

/-- C9 counterexample: a configuration whose default scope is *not* the
claimed exception (it is absent) still fails to round-trip: a scoped server
group containing an entry named `address` re-parses, under the untagged
encoding, as a single global `Server` override — the `Scope` variant
collapses to the `Global` variant, so the reloaded structure differs. -/
theorem config_roundtrip_fails_for_scoped_entry_named_address :
    (Config.mk none []
        [("grp", ServerEntry.scope [("address", ScopedServer.address "h")])]).default
      = none ∧
    Config.decode (Config.encode (Config.mk none []
        [("grp", ServerEntry.scope [("address", ScopedServer.address "h")])]))
      = Except.ok (Config.mk none []
          [("grp", ServerEntry.global
              (ScopedServer.override_ (Server.mk "h" Scope.default)))]) ∧
    Config.mk none []
        [("grp", ServerEntry.global
            (ScopedServer.override_ (Server.mk "h" Scope.default)))]
      ≠ Config.mk none []
          [("grp", ServerEntry.scope [("address", ScopedServer.address "h")])] := by
  decide

/-- C9 witness: a configuration exercising both mapping kinds and an
explicitly empty default scope; the reload equals the original except that
the empty default collapses to absent. -/
theorem config_roundtrip_up_to_empty_default_witness :
    Config.decode (Config.encode (Config.mk (some Scope.default)
        [("dev", { user := some "bob" })]
        [("s1", ServerEntry.global (ScopedServer.address "h")),
         ("grp", ServerEntry.scope [("web", ScopedServer.address "1.2.3.4")])]))
      = Except.ok (Config.normalizeDefault (Config.mk (some Scope.default)
        [("dev", { user := some "bob" })]
        [("s1", ServerEntry.global (ScopedServer.address "h")),
         ("grp", ServerEntry.scope [("web", ScopedServer.address "1.2.3.4")])])) :=
  config_roundtrip_up_to_empty_default
    (Config.mk (some Scope.default)
      [("dev", { user := some "bob" })]
      [("s1", ServerEntry.global (ScopedServer.address "h")),
       ("grp", ServerEntry.scope [("web", ScopedServer.address "1.2.3.4")])])
    (by decide)
